import Mathlib

/-!
Shallow embedding of the core of tradik/wpexporter: the WordPress REST API
retrieval client (internal/api/client.go) and the brute-force identifier
scanner (internal/bruteforce/scanner.go).

HTTP traffic is modelled by response oracles: a server is a function from the
request parameters to either a transport-level failure (the resty call
returning a non-nil err) or an HTTP response carrying a status code and an
opaque body.  JSON decoding (json.Unmarshal) is modelled by a decode oracle
from bodies to an optional decoded value.  The worker pools of the scanner are
sequentialized: the multiset of found records and of probed ids is independent
of the goroutine interleaving (only report order varies), so length and
membership facts proved here hold for every interleaving.
-/

namespace WPExporter

/-- Result of one HTTP GET as seen by the Go code: `netError` is the
`err != nil` branch of the resty call, `response` carries
`resp.StatusCode()` and `resp.Body()`. -/
inductive HttpResult (β : Type) where
  | netError
  | response (status : Int) (body : β)
deriving Repr, DecidableEq

/-- Error values produced by the retrieval client (the `fmt.Errorf` returns of
client.go), tagged by the kind of failure and the page or id at which it
occurred. -/
inductive ClientError where
  | netError (at_ : Int)
  | statusError (status : Int) (at_ : Int)
  | decodeError (at_ : Int)
deriving Repr, DecidableEq

/-- WordPress post or page record; the core only inspects the ID, the payload
is otherwise opaque (models.WordPressPost). -/
structure WordPressPost where
  id : Int
  payload : String
deriving Repr, DecidableEq

/-- WordPress media record (models.WordPressMedia). -/
structure WordPressMedia where
  id : Int
  payload : String
deriving Repr, DecidableEq

/-- Site metadata (models.SiteInfo); only the fields the fallback constructs. -/
structure SiteInfo where
  url : String
  name : String
deriving Repr, DecidableEq

/-- The fixed page size of the paginated fetches: `perPage := 100` in
getAllContent / GetMedia / GetCategories / GetTags / GetUsers. -/
def perPage : Int := 100

/-- The loop body of `getAllContent` in client.go, fuelled (the Go `for` loop
has no bound; `none` means the loop is still running after `fuel` rounds).
`server page per` is the GET of `{base}/{endpoint}?page={page}&per_page={per}`;
`decode` is `json.Unmarshal` into `[]models.WordPressPost`.  Mirrors the Go
control flow: transport error aborts; status 400 breaks with the accumulated
records; any other non-200 status aborts; an undecodable body aborts; a decoded
empty list breaks; otherwise the page is appended and the loop continues at
`page + 1`. -/
def getAllContentLoop {β ρ : Type} (server : Int → Int → HttpResult β)
    (decode : β → Option (List ρ)) :
    Nat → List ρ → Int → Option (Except ClientError (List ρ))
  | 0, _, _ => none
  | Nat.succ fuel, acc, page =>
    match server page perPage with
    | .netError => some (.error (.netError page))
    | .response st body =>
      if st = 400 then some (.ok acc)
      else if st ≠ 200 then some (.error (.statusError st page))
      else
        match decode body with
        | none => some (.error (.decodeError page))
        | some content =>
          if content.length = 0 then some (.ok acc)
          else getAllContentLoop server decode fuel (acc ++ content) (page + 1)

/-- `getAllContent` of client.go (also the shape of GetMedia, GetCategories,
GetTags, GetUsers): start at `page := 1` with an empty accumulator. -/
def getAllContent {β ρ : Type} (server : Int → Int → HttpResult β)
    (decode : β → Option (List ρ)) (fuel : Nat) :
    Option (Except ClientError (List ρ)) :=
  getAllContentLoop server decode fuel [] 1

/-- A page that contributes records to the paged fetch: HTTP 200 with a body
decoding to a non-empty list. -/
def goodPage {β ρ : Type} (server : Int → Int → HttpResult β)
    (decode : β → Option (List ρ)) (page : Int) (l : List ρ) : Prop :=
  l ≠ [] ∧ ∃ b, server page perPage = HttpResult.response 200 b ∧ decode b = some l

/-- A pagination terminator: HTTP 400, or HTTP 200 decoding to the empty
list. -/
def terminatorPage {β ρ : Type} (server : Int → Int → HttpResult β)
    (decode : β → Option (List ρ)) (page : Int) : Prop :=
  (∃ b, server page perPage = HttpResult.response 400 b) ∨
  (∃ b, server page perPage = HttpResult.response 200 b ∧ decode b = some ([] : List ρ))

/-- A page that aborts the fetch: transport error, a status other than 200 and
400, or HTTP 200 with an undecodable body. -/
def badPage {β ρ : Type} (server : Int → Int → HttpResult β)
    (decode : β → Option (List ρ)) (page : Int) : Prop :=
  server page perPage = HttpResult.netError ∨
  (∃ st b, server page perPage = HttpResult.response st b ∧ st ≠ 200 ∧ st ≠ 400) ∨
  (∃ b, server page perPage = HttpResult.response 200 b ∧ decode b = none)

/-- Result of a single-item fetch `(ptr, err)`: `found r` is `(&r, nil)`,
`notFound` is the `(nil, nil)` returned on HTTP 404, `fetchErr e` is a
`(nil, err)` return. -/
inductive ByIDResult (ρ : Type) where
  | found (r : ρ)
  | notFound
  | fetchErr (e : ClientError)
deriving Repr, DecidableEq

/-- `GetPostByID` of client.go: GET `{base}/posts/{id}`; 404 maps to
`(nil, nil)`; any other non-200 status is an error; a 200 body is decoded,
decode failure is an error. -/
def GetPostByID {β : Type} (server : Int → HttpResult β)
    (decode : β → Option WordPressPost) (id : Int) : ByIDResult WordPressPost :=
  match server id with
  | .netError => .fetchErr (.netError id)
  | .response st body =>
    if st = 404 then .notFound
    else if st ≠ 200 then .fetchErr (.statusError st id)
    else
      match decode body with
      | none => .fetchErr (.decodeError id)
      | some p => .found p

/-- `GetPageByID` of client.go: same control flow as GetPostByID against the
`pages` endpoint. -/
def GetPageByID {β : Type} (server : Int → HttpResult β)
    (decode : β → Option WordPressPost) (id : Int) : ByIDResult WordPressPost :=
  match server id with
  | .netError => .fetchErr (.netError id)
  | .response st body =>
    if st = 404 then .notFound
    else if st ≠ 200 then .fetchErr (.statusError st id)
    else
      match decode body with
      | none => .fetchErr (.decodeError id)
      | some p => .found p

/-- `GetMediaByID` of client.go: same control flow against the `media`
endpoint. -/
def GetMediaByID {β : Type} (server : Int → HttpResult β)
    (decode : β → Option WordPressMedia) (id : Int) : ByIDResult WordPressMedia :=
  match server id with
  | .netError => .fetchErr (.netError id)
  | .response st body =>
    if st = 404 then .notFound
    else if st ≠ 200 then .fetchErr (.statusError st id)
    else
      match decode body with
      | none => .fetchErr (.decodeError id)
      | some m => .found m

/-- The `siteInfo = models.SiteInfo{URL: c.config.URL, Name: "WordPress Site"}`
fallback of GetSiteInfo. -/
def fallbackSiteInfo (configURL : String) : SiteInfo :=
  { url := configURL, name := "WordPress Site" }

/-- `GetSiteInfo` of client.go.  `settings` is the GET of the settings
endpoint, `siteRoot` the GET of the base URL.  The Go code returns an error
when either GET fails at the transport level; a non-200 settings status
switches `resp` to the site-root response; whichever body is selected is then
unmarshalled, with decode failure replaced by the synthesized fallback. -/
def getSiteInfo {β : Type} (settings siteRoot : HttpResult β)
    (decode : β → Option SiteInfo) (configURL : String) : Except String SiteInfo :=
  match settings with
  | .netError => .error "failed to get site info"
  | .response st body =>
    if st ≠ 200 then
      match siteRoot with
      | .netError => .error "failed to get site info"
      | .response _ body2 =>
        match decode body2 with
        | some si => .ok si
        | none => .ok (fallbackSiteInfo configURL)
    else
      match decode body with
      | some si => .ok si
      | none => .ok (fallbackSiteInfo configURL)

/-- Outcome of one single-item fetch as consumed by the scanner worker
(`post, err := s.apiClient.GetPostByID(id)`): `record r` is
`err == nil && post != nil`, `absent` is the `(nil, nil)` 404 case, and
`fetchErr` is any `err != nil` return. -/
inductive FetchOutcome (ρ : Type) where
  | record (r : ρ)
  | absent
  | fetchErr
deriving Repr, DecidableEq

/-- The record appended by the worker for one outcome: some only in the
`err == nil && post != nil` case. -/
def recordOf {ρ : Type} : FetchOutcome ρ → Option ρ
  | .record r => some r
  | _ => none

/-- The configuration fields read by the scanner (config.Config). -/
structure Config where
  bruteForce : Bool
  maxID : Int
  concurrent : Int
  verbose : Bool
deriving Repr, DecidableEq

/-- The three single-item fetch operations of api.Client that the scanner
depends on, as outcome oracles indexed by id. -/
structure WPClient where
  fetchPost : Int → FetchOutcome WordPressPost
  fetchPage : Int → FetchOutcome WordPressPost
  fetchMedia : Int → FetchOutcome WordPressMedia

/-- The ascending id list enumerated by `for id := lo; id <= hi; id++`;
empty when `hi < lo`. -/
def idRange (lo hi : Int) : List Int :=
  (List.range (hi + 1 - lo).toNat).map (fun k : Nat => lo + (k : Int))

/-- Body of the scanner worker loop over the job queue, sequentialized.
For each job id: if the id is already known, nothing happens; otherwise the
single-item fetch is issued (the id is recorded in the second component, the
call trace) and on `err == nil && ptr != nil` the record is appended to the
found list (first component). -/
def scanJobs {ρ : Type} (existing : Int → Bool) (fetch : Int → FetchOutcome ρ) :
    List Int → List ρ × List Int
  | [] => ([], [])
  | id :: rest =>
    if existing id then scanJobs existing fetch rest
    else
      match fetch id, scanJobs existing fetch rest with
      | .record r, res => (r :: res.1, id :: res.2)
      | _, res => (res.1, id :: res.2)

/-- `scanPosts` of scanner.go.  `jobs := make(chan int, s.config.MaxID)`
panics at runtime when MaxID is negative (Go: makechan with negative size),
modelled as `none`.  When `Concurrent <= 0` no worker goroutine is started, so
the jobs are buffered, the channel is closed and the function returns with
nothing found and no fetch issued.  Otherwise the workers drain the queue
`1..MaxID`; the returned pair is (found posts, issued GetPostByID calls). -/
def scanPosts (cfg : Config) (fetchPost : Int → FetchOutcome WordPressPost)
    (existing : Int → Bool) : Option (List WordPressPost × List Int) :=
  if cfg.maxID < 0 then none
  else if cfg.concurrent ≤ 0 then some ([], [])
  else some (scanJobs existing fetchPost (idRange 1 cfg.maxID))

/-- `scanPages` of scanner.go: identical to scanPosts with GetPageByID. -/
def scanPages (cfg : Config) (fetchPage : Int → FetchOutcome WordPressPost)
    (existing : Int → Bool) : Option (List WordPressPost × List Int) :=
  if cfg.maxID < 0 then none
  else if cfg.concurrent ≤ 0 then some ([], [])
  else some (scanJobs existing fetchPage (idRange 1 cfg.maxID))

/-- `scanMedia` of scanner.go: identical to scanPosts with GetMediaByID. -/
def scanMedia (cfg : Config) (fetchMedia : Int → FetchOutcome WordPressMedia)
    (existing : Int → Bool) : Option (List WordPressMedia × List Int) :=
  if cfg.maxID < 0 then none
  else if cfg.concurrent ≤ 0 then some ([], [])
  else some (scanJobs existing fetchMedia (idRange 1 cfg.maxID))

/-- The `existingPostIDs` map built by ScanForContent
(`existingPostIDs[post.ID] = true` for each post); lookup is membership of the
id among the IDs of the supplied posts. -/
def existingPostIDs (existingPosts : List WordPressPost) : Int → Bool :=
  fun id => decide (id ∈ existingPosts.map WordPressPost.id)

/-- The `existingPageIDs` map built by ScanForContent. -/
def existingPageIDs (existingPages : List WordPressPost) : Int → Bool :=
  fun id => decide (id ∈ existingPages.map WordPressPost.id)

/-- The `existingMediaIDs` map built by ScanForContent. -/
def existingMediaIDs (existingMedia : List WordPressMedia) : Int → Bool :=
  fun id => decide (id ∈ existingMedia.map WordPressMedia.id)

/-- `bruteforce.ScanResult`. -/
structure ScanResult where
  posts : List WordPressPost
  pages : List WordPressPost
  media : List WordPressMedia
  found : Nat
deriving Repr, DecidableEq

/-- The single-item fetch calls issued during one ScanForContent run, per
kind — the instrumentation a mock client would record. -/
structure ScanTrace where
  postCalls : List Int
  pageCalls : List Int
  mediaCalls : List Int
deriving Repr, DecidableEq

/-- `ScanForContent` of scanner.go.  Returns `none` when one of the per-kind
scans panics (negative MaxID); otherwise `some (result, err, trace)` where
`err` models the Go error return, which is `nil` on both return paths of the
source (`return &ScanResult\x7b\x7d, nil` when BruteForce is off, and
`return result, nil` after the three per-kind scans).  `Found` is accumulated
as `result.Found += len(...)` for each kind. -/
def ScanForContent (cfg : Config) (client : WPClient)
    (existingPosts existingPages : List WordPressPost)
    (existingMedia : List WordPressMedia) :
    Option (ScanResult × Option String × ScanTrace) :=
  if cfg.bruteForce = false then
    some ({ posts := [], pages := [], media := [], found := 0 }, none, ⟨[], [], []⟩)
  else
    match scanPosts cfg client.fetchPost (existingPostIDs existingPosts),
          scanPages cfg client.fetchPage (existingPageIDs existingPages),
          scanMedia cfg client.fetchMedia (existingMediaIDs existingMedia) with
    | some p, some g, some m =>
      some ({ posts := p.1, pages := g.1, media := m.1,
              found := p.1.length + g.1.length + m.1.length },
            none, ⟨p.2, g.2, m.2⟩)
    | _, _, _ => none

/-- The `interface\x7b\x7d` result of ScanSpecificRange: a list of the kind
that was scanned. -/
inductive RangeScanResult where
  | posts (l : List WordPressPost)
  | pages (l : List WordPressPost)
  | media (l : List WordPressMedia)
deriving Repr, DecidableEq

/-- The linear probe loop of ScanSpecificRange over a job list: every id is
fetched (second component), and the record is kept when
`err == nil && ptr != nil` (first component). -/
def rangeJobs {ρ : Type} (fetch : Int → FetchOutcome ρ) :
    List Int → List ρ × List Int
  | [] => ([], [])
  | id :: rest =>
    match fetch id, rangeJobs fetch rest with
    | .record r, res => (r :: res.1, id :: res.2)
    | _, res => (res.1, id :: res.2)

/-- `ScanSpecificRange` of scanner.go: dispatch on the contentType string;
for a supported kind, probe `startID..endID` linearly with no known-id
filtering and return the found records with a nil error; otherwise return
`fmt.Errorf("unsupported content type: %s", contentType)` without any network
call.  The second component is the issued-call trace. -/
def ScanSpecificRange (client : WPClient) (contentType : String)
    (startID endID : Int) : Except String RangeScanResult × List Int :=
  if contentType = "posts" then
    let r := rangeJobs client.fetchPost (idRange startID endID)
    (Except.ok (RangeScanResult.posts r.1), r.2)
  else if contentType = "pages" then
    let r := rangeJobs client.fetchPage (idRange startID endID)
    (Except.ok (RangeScanResult.pages r.1), r.2)
  else if contentType = "media" then
    let r := rangeJobs client.fetchMedia (idRange startID endID)
    (Except.ok (RangeScanResult.media r.1), r.2)
  else
    (Except.error ("unsupported content type: " ++ contentType), [])

/-! Concrete fixtures used to evaluate the development on closed inputs. -/

/-- A concrete scanner configuration: brute force on, MaxID 3. -/
def cfg3W : Config := { bruteForce := true, maxID := 3, concurrent := 2, verbose := false }

/-- A concrete scanner configuration: brute force on, MaxID 5. -/
def cfg5W : Config := { bruteForce := true, maxID := 5, concurrent := 2, verbose := false }

/-- A concrete client mixing records, absences and transport errors. -/
def clientW : WPClient :=
  { fetchPost := fun id =>
      if id = 2 then FetchOutcome.record ⟨2, "p2"⟩
      else if id = 3 then FetchOutcome.fetchErr
      else FetchOutcome.absent,
    fetchPage := fun id =>
      if id = 3 then FetchOutcome.record ⟨3, "g3"⟩ else FetchOutcome.absent,
    fetchMedia := fun _ => FetchOutcome.fetchErr }

/-- Known posts with ids 1 and 2. -/
def epostsW : List WordPressPost := [⟨1, "a"⟩, ⟨2, "b"⟩]

/-- Expected scan result for `cfg5W`/`clientW`/`epostsW`. -/
def resultW : ScanResult := { posts := [], pages := [⟨3, "g3"⟩], media := [], found := 1 }

/-- Expected call trace for `cfg5W`/`clientW`/`epostsW`. -/
def traceW : ScanTrace :=
  { postCalls := [3, 4, 5], pageCalls := [1, 2, 3, 4, 5], mediaCalls := [1, 2, 3, 4, 5] }

/-- A paged server: two non-empty pages, then an empty page; bodies are the
record lists themselves. -/
def pagedServerW : Int → Int → HttpResult (List WordPressPost) :=
  fun p _ =>
    if p = 1 then HttpResult.response 200 [⟨1, "x"⟩, ⟨2, "y"⟩]
    else if p = 2 then HttpResult.response 200 [⟨3, "z"⟩]
    else HttpResult.response 200 []

/-- The decoded pages served by `pagedServerW`. -/
def pagesW : List (List WordPressPost) := [[⟨1, "x"⟩, ⟨2, "y"⟩], [⟨3, "z"⟩]]

/-- A paged server that answers HTTP 500 to everything. -/
def server500W : Int → Int → HttpResult (List WordPressPost) :=
  fun _ _ => HttpResult.response 500 []

/-- A single-item server: 404 at id 1, 500 at id 2, 200 elsewhere. -/
def byIDServerW : Int → HttpResult Unit :=
  fun id =>
    if id = 1 then HttpResult.response 404 ()
    else if id = 2 then HttpResult.response 500 ()
    else HttpResult.response 200 ()

/-- A single-item decoder always yielding the same post. -/
def decPostW : Unit → Option WordPressPost := fun _ => some ⟨7, "w"⟩

/-! Helper lemmas. -/

theorem idRange_mem (lo hi id : Int) : id ∈ idRange lo hi ↔ lo ≤ id ∧ id ≤ hi := by
  unfold idRange
  constructor
  · intro h
    rcases List.mem_map.mp h with ⟨k, hk, hid⟩
    have hk2 : k < (hi + 1 - lo).toNat := List.mem_range.mp hk
    subst hid
    omega
  · rintro ⟨h1, h2⟩
    refine List.mem_map.mpr ⟨(id - lo).toNat, List.mem_range.mpr ?_, ?_⟩
    · omega
    · omega

theorem idRange_sorted (lo hi : Int) :
    List.Pairwise (fun a b => a < b) (idRange lo hi) := by
  unfold idRange
  refine List.pairwise_map.mpr ?_
  have h := List.pairwise_lt_range ((hi + 1 - lo).toNat)
  refine h.imp ?_
  intro a b hab
  omega

theorem idRange_nil_of_gt (lo hi : Int) (h : hi < lo) : idRange lo hi = [] := by
  unfold idRange
  have : (hi + 1 - lo).toNat = 0 := by omega
  simp [this]

theorem scanJobs_calls {ρ : Type} (existing : Int → Bool)
    (fetch : Int → FetchOutcome ρ) (l : List Int) (id : Int)
    (h : id ∈ (scanJobs existing fetch l).2) : id ∈ l ∧ existing id = false := by
  induction l with
  | nil => simp [scanJobs] at h
  | cons a rest ih =>
    by_cases ha : existing a
    · rw [scanJobs, if_pos ha] at h
      rcases ih h with ⟨h1, h2⟩
      exact ⟨List.mem_cons_of_mem _ h1, h2⟩
    · rw [scanJobs, if_neg ha] at h
      rcases hf : fetch a with r | _ | _ <;> rw [hf] at h <;>
        simp only [List.mem_cons] at h <;>
        rcases h with rfl | h <;>
        first
          | exact ⟨List.mem_cons_self _ _, by simpa using ha⟩
          | exact ⟨List.mem_cons_of_mem _ (ih h).1, (ih h).2⟩

theorem scanJobs_congr {ρ : Type} (existing : Int → Bool)
    (f g : Int → FetchOutcome ρ)
    (hfg : ∀ id, recordOf (f id) = recordOf (g id)) (l : List Int) :
    scanJobs existing f l = scanJobs existing g l := by
  induction l with
  | nil => rfl
  | cons a rest ih =>
    by_cases ha : existing a
    · rw [scanJobs, if_pos ha, scanJobs, if_pos ha, ih]
    · rw [scanJobs, if_neg ha, scanJobs, if_neg ha, ih]
      have h := hfg a
      rcases hf : f a with r | _ | _ <;> rcases hg : g a with s | _ | _ <;>
        rw [hf, hg] at h <;> simp [recordOf] at h <;> simp [h]

theorem getAllContentLoop_ok {β ρ : Type} (server : Int → Int → HttpResult β)
    (decode : β → Option (List ρ)) (ps : List (List ρ)) :
    ∀ (fuel : Nat) (acc : List ρ) (start : Int),
      ps.length + 1 ≤ fuel →
      (∀ i (h : i < ps.length),
        goodPage server decode (start + (i : Int)) (ps.get ⟨i, h⟩)) →
      terminatorPage server decode (start + (ps.length : Int)) →
      getAllContentLoop server decode fuel acc start =
        some (Except.ok (acc ++ ps.join)) := by
  induction ps with
  | nil =>
    intro fuel acc start hfuel hgood hterm
    obtain ⟨f, rfl⟩ : ∃ f, fuel = f + 1 := ⟨fuel - 1, by omega⟩
    simp only [List.length_nil, Nat.cast_zero, add_zero] at hterm
    rcases hterm with ⟨b, hb⟩ | ⟨b, hb, hdec⟩
    · simp [getAllContentLoop, hb]
    · simp [getAllContentLoop, hb, hdec]
  | cons l ps ih =>
    intro fuel acc start hfuel hgood hterm
    obtain ⟨f, rfl⟩ : ∃ f, fuel = f + 1 := ⟨fuel - 1, by omega⟩
    obtain ⟨hne, b, hb, hdec⟩ := hgood 0 (by simp)
    rw [show start + ((0 : Nat) : Int) = start by push_cast; ring] at hb
    have hlen : l.length ≠ 0 := by simpa using hne
    rw [getAllContentLoop]
    rw [hb]
    simp only [hdec]
    norm_num [hlen]
    have hrec := ih f (acc ++ l) (start + 1)
      (by simp at hfuel; omega)
      (by
        intro i h
        have hg := hgood (i + 1) (by simpa using h)
        rw [show start + ((i + 1 : Nat) : Int) = start + 1 + (i : Int) by
          push_cast; ring] at hg
        exact hg)
      (by
        rw [show start + 1 + ((ps.length : Nat) : Int) =
          start + (((l :: ps).length : Nat) : Int) by simp; push_cast; ring]
        exact hterm)
    rw [hrec]
    simp [List.append_assoc]

theorem getAllContentLoop_err {β ρ : Type} (server : Int → Int → HttpResult β)
    (decode : β → Option (List ρ)) (ps : List (List ρ)) :
    ∀ (fuel : Nat) (acc : List ρ) (start : Int),
      ps.length + 1 ≤ fuel →
      (∀ i (h : i < ps.length),
        goodPage server decode (start + (i : Int)) (ps.get ⟨i, h⟩)) →
      badPage server decode (start + (ps.length : Int)) →
      ∃ e, getAllContentLoop server decode fuel acc start =
        some (Except.error e) := by
  induction ps with
  | nil =>
    intro fuel acc start hfuel hgood hbad
    obtain ⟨f, rfl⟩ : ∃ f, fuel = f + 1 := ⟨fuel - 1, by omega⟩
    simp only [List.length_nil, Nat.cast_zero, add_zero] at hbad
    rcases hbad with hb | ⟨st, b, hb, h200, h400⟩ | ⟨b, hb, hdec⟩
    · exact ⟨ClientError.netError start, by simp [getAllContentLoop, hb]⟩
    · exact ⟨ClientError.statusError st start,
        by simp [getAllContentLoop, hb, h400, h200]⟩
    · exact ⟨ClientError.decodeError start, by simp [getAllContentLoop, hb, hdec]⟩
  | cons l ps ih =>
    intro fuel acc start hfuel hgood hbad
    obtain ⟨f, rfl⟩ : ∃ f, fuel = f + 1 := ⟨fuel - 1, by omega⟩
    obtain ⟨hne, b, hb, hdec⟩ := hgood 0 (by simp)
    rw [show start + ((0 : Nat) : Int) = start by push_cast; ring] at hb
    have hlen : l.length ≠ 0 := by simpa using hne
    rw [getAllContentLoop]
    rw [hb]
    simp only [hdec]
    norm_num [hlen]
    exact ih f (acc ++ l) (start + 1)
      (by simp at hfuel; omega)
      (by
        intro i h
        have hg := hgood (i + 1) (by simpa using h)
        rw [show start + ((i + 1 : Nat) : Int) = start + 1 + (i : Int) by
          push_cast; ring] at hg
        exact hg)
      (by
        rw [show start + 1 + ((ps.length : Nat) : Int) =
          start + (((l :: ps).length : Nat) : Int) by simp; push_cast; ring]
        exact hbad)

theorem getAllContentLoop_congr {β ρ : Type} (s₁ s₂ : Int → Int → HttpResult β)
    (decode : β → Option (List ρ)) (hs : ∀ p, s₁ p perPage = s₂ p perPage) :
    ∀ (fuel : Nat) (acc : List ρ) (page : Int),
      getAllContentLoop s₁ decode fuel acc page =
        getAllContentLoop s₂ decode fuel acc page := by
  intro fuel
  induction fuel with
  | zero => intro acc page; rfl
  | succ f ih =>
    intro acc page
    rw [getAllContentLoop, getAllContentLoop, hs page]
    cases s₂ page perPage with
    | netError => rfl
    | response st body =>
      by_cases h400 : st = 400
      · simp [h400]
      · by_cases h200 : st = 200
        · subst h200
          norm_num
          cases decode body with
          | none => rfl
          | some content =>
            by_cases hl : content.length = 0
            · simp [hl]
            · simp only [hl, if_neg hl]
              exact ih (acc ++ content) (page + 1)
        · simp [h400, h200]

theorem rangeJobs_eq {ρ : Type} (fetch : Int → FetchOutcome ρ) (l : List Int) :
    rangeJobs fetch l = (l.filterMap (fun id => recordOf (fetch id)), l) := by
  induction l with
  | nil => rfl
  | cons a rest ih =>
    rw [rangeJobs, ih]
    rcases hf : fetch a with r | _ | _ <;> simp [recordOf, hf]

theorem scanPosts_some (cfg : Config) (f : Int → FetchOutcome WordPressPost)
    (e : Int → Bool) (hmax : 0 ≤ cfg.maxID) :
    scanPosts cfg f e =
      some (if cfg.concurrent ≤ 0 then ([], [])
            else scanJobs e f (idRange 1 cfg.maxID)) := by
  unfold scanPosts
  rw [if_neg (by omega)]
  by_cases hc : cfg.concurrent ≤ 0
  · rw [if_pos hc, if_pos hc]
  · rw [if_neg hc, if_neg hc]

theorem scanPages_some (cfg : Config) (f : Int → FetchOutcome WordPressPost)
    (e : Int → Bool) (hmax : 0 ≤ cfg.maxID) :
    scanPages cfg f e =
      some (if cfg.concurrent ≤ 0 then ([], [])
            else scanJobs e f (idRange 1 cfg.maxID)) := by
  unfold scanPages
  rw [if_neg (by omega)]
  by_cases hc : cfg.concurrent ≤ 0
  · rw [if_pos hc, if_pos hc]
  · rw [if_neg hc, if_neg hc]

theorem scanMedia_some (cfg : Config) (f : Int → FetchOutcome WordPressMedia)
    (e : Int → Bool) (hmax : 0 ≤ cfg.maxID) :
    scanMedia cfg f e =
      some (if cfg.concurrent ≤ 0 then ([], [])
            else scanJobs e f (idRange 1 cfg.maxID)) := by
  unfold scanMedia
  rw [if_neg (by omega)]
  by_cases hc : cfg.concurrent ≤ 0
  · rw [if_pos hc, if_pos hc]
  · rw [if_neg hc, if_neg hc]

theorem scanPosts_calls_spec (cfg : Config) (f : Int → FetchOutcome WordPressPost)
    (e : Int → Bool) (p : List WordPressPost × List Int)
    (hp : scanPosts cfg f e = some p) :
    ∀ id ∈ p.2, 1 ≤ id ∧ id ≤ cfg.maxID ∧ e id = false := by
  unfold scanPosts at hp
  by_cases h1 : cfg.maxID < 0
  · rw [if_pos h1] at hp
    exact absurd hp (by simp)
  · rw [if_neg h1] at hp
    by_cases h2 : cfg.concurrent ≤ 0
    · rw [if_pos h2] at hp
      obtain rfl := Option.some.inj hp
      intro id hid
      exact absurd hid (List.not_mem_nil id)
    · rw [if_neg h2] at hp
      obtain rfl := Option.some.inj hp
      intro id hid
      obtain ⟨hmem, hex⟩ := scanJobs_calls e f _ id hid
      obtain ⟨hlo, hhi⟩ := (idRange_mem 1 cfg.maxID id).mp hmem
      exact ⟨hlo, hhi, hex⟩

theorem scanPages_calls_spec (cfg : Config) (f : Int → FetchOutcome WordPressPost)
    (e : Int → Bool) (p : List WordPressPost × List Int)
    (hp : scanPages cfg f e = some p) :
    ∀ id ∈ p.2, 1 ≤ id ∧ id ≤ cfg.maxID ∧ e id = false := by
  unfold scanPages at hp
  by_cases h1 : cfg.maxID < 0
  · rw [if_pos h1] at hp
    exact absurd hp (by simp)
  · rw [if_neg h1] at hp
    by_cases h2 : cfg.concurrent ≤ 0
    · rw [if_pos h2] at hp
      obtain rfl := Option.some.inj hp
      intro id hid
      exact absurd hid (List.not_mem_nil id)
    · rw [if_neg h2] at hp
      obtain rfl := Option.some.inj hp
      intro id hid
      obtain ⟨hmem, hex⟩ := scanJobs_calls e f _ id hid
      obtain ⟨hlo, hhi⟩ := (idRange_mem 1 cfg.maxID id).mp hmem
      exact ⟨hlo, hhi, hex⟩

theorem scanMedia_calls_spec (cfg : Config) (f : Int → FetchOutcome WordPressMedia)
    (e : Int → Bool) (p : List WordPressMedia × List Int)
    (hp : scanMedia cfg f e = some p) :
    ∀ id ∈ p.2, 1 ≤ id ∧ id ≤ cfg.maxID ∧ e id = false := by
  unfold scanMedia at hp
  by_cases h1 : cfg.maxID < 0
  · rw [if_pos h1] at hp
    exact absurd hp (by simp)
  · rw [if_neg h1] at hp
    by_cases h2 : cfg.concurrent ≤ 0
    · rw [if_pos h2] at hp
      obtain rfl := Option.some.inj hp
      intro id hid
      exact absurd hid (List.not_mem_nil id)
    · rw [if_neg h2] at hp
      obtain rfl := Option.some.inj hp
      intro id hid
      obtain ⟨hmem, hex⟩ := scanJobs_calls e f _ id hid
      obtain ⟨hlo, hhi⟩ := (idRange_mem 1 cfg.maxID id).mp hmem
      exact ⟨hlo, hhi, hex⟩

/-! Claim theorems. -/

/-- C1: for every existing posts/pages/media collections and every per-id
fetch oracle (records, absences and transport errors mixed), ScanForContent
returns a ScanResult together with a nil error, the returned Found equals
len(Posts) + len(Pages) + len(Media), and a per-id fetch error is treated
exactly like absence — replacing errors by absences (or vice versa) leaves the
whole result unchanged, so an error never aborts the scan. -/
theorem scanForContent_never_fails_and_counts
    (cfg : Config) (client : WPClient)
    (eposts epages : List WordPressPost) (emedia : List WordPressMedia)
    (hmax : 0 ≤ cfg.maxID) :
    (∃ r tr, ScanForContent cfg client eposts epages emedia = some (r, none, tr) ∧
      r.found = r.posts.length + r.pages.length + r.media.length) ∧
    (∀ client' : WPClient,
      (∀ id, recordOf (client.fetchPost id) = recordOf (client'.fetchPost id)) →
      (∀ id, recordOf (client.fetchPage id) = recordOf (client'.fetchPage id)) →
      (∀ id, recordOf (client.fetchMedia id) = recordOf (client'.fetchMedia id)) →
      ScanForContent cfg client eposts epages emedia =
        ScanForContent cfg client' eposts epages emedia) := by
  constructor
  · rw [ScanForContent]
    by_cases hbf : cfg.bruteForce = false
    · rw [if_pos hbf]
      exact ⟨_, _, rfl, rfl⟩
    · rw [if_neg hbf]
      rw [scanPosts_some cfg _ _ hmax, scanPages_some cfg _ _ hmax,
        scanMedia_some cfg _ _ hmax]
      exact ⟨_, _, rfl, rfl⟩
  · intro client' hp hg hm
    rw [ScanForContent, ScanForContent]
    by_cases hbf : cfg.bruteForce = false
    · rw [if_pos hbf, if_pos hbf]
    · rw [if_neg hbf, if_neg hbf]
      rw [scanPosts_some cfg _ _ hmax, scanPages_some cfg _ _ hmax,
        scanMedia_some cfg _ _ hmax, scanPosts_some cfg _ _ hmax,
        scanPages_some cfg _ _ hmax, scanMedia_some cfg _ _ hmax]
      rw [scanJobs_congr _ _ _ hp, scanJobs_congr _ _ _ hg,
        scanJobs_congr _ _ _ hm]

/-- Witness for C1 at a concrete mixed client. -/
theorem scanForContent_never_fails_and_counts_witness :
    ∃ r tr, ScanForContent cfg5W clientW epostsW [] [] = some (r, none, tr) ∧
      r.found = r.posts.length + r.pages.length + r.media.length :=
  (scanForContent_never_fails_and_counts cfg5W clientW epostsW [] []
    (by decide)).1

/-- C2: every single-item fetch call that a ScanForContent run issues is for
an identifier in [1, MaxID] that is not among the ids of the corresponding
existing collection; in particular an already-known id never triggers a
network call, for posts, pages and media independently. -/
theorem scanForContent_probes_only_unknown
    (cfg : Config) (client : WPClient)
    (eposts epages : List WordPressPost) (emedia : List WordPressMedia)
    (r : ScanResult) (err : Option String) (tr : ScanTrace)
    (h : ScanForContent cfg client eposts epages emedia = some (r, err, tr)) :
    (∀ id ∈ tr.postCalls,
      1 ≤ id ∧ id ≤ cfg.maxID ∧ id ∉ eposts.map WordPressPost.id) ∧
    (∀ id ∈ tr.pageCalls,
      1 ≤ id ∧ id ≤ cfg.maxID ∧ id ∉ epages.map WordPressPost.id) ∧
    (∀ id ∈ tr.mediaCalls,
      1 ≤ id ∧ id ≤ cfg.maxID ∧ id ∉ emedia.map WordPressMedia.id) := by
  rw [ScanForContent] at h
  by_cases hbf : cfg.bruteForce = false
  · rw [if_pos hbf] at h
    obtain ⟨rfl, rfl, rfl⟩ :
        r = { posts := [], pages := [], media := [], found := 0 } ∧
          err = none ∧ tr = ⟨[], [], []⟩ := by
      have h2 := Option.some.inj h
      refine ⟨?_, ?_, ?_⟩
      · exact (congrArg Prod.fst h2).symm
      · exact (congrArg (fun q => q.2.1) h2).symm
      · exact (congrArg (fun q => q.2.2) h2).symm
    refine ⟨?_, ?_, ?_⟩ <;> (intro id hid; exact absurd hid (List.not_mem_nil id))
  · rw [if_neg hbf] at h
    rcases hps : scanPosts cfg client.fetchPost (existingPostIDs eposts) with _ | p
    · rw [hps] at h; simp at h
    rcases hpg : scanPages cfg client.fetchPage (existingPageIDs epages) with _ | g
    · rw [hps, hpg] at h; simp at h
    rcases hmd : scanMedia cfg client.fetchMedia (existingMediaIDs emedia) with _ | m
    · rw [hps, hpg, hmd] at h; simp at h
    rw [hps, hpg, hmd] at h
    have h2 := Option.some.inj h
    have htr : tr = ⟨p.2, g.2, m.2⟩ := (congrArg (fun q => q.2.2) h2).symm
    subst htr
    refine ⟨?_, ?_, ?_⟩
    · intro id hid
      obtain ⟨h1, h2, h3⟩ := scanPosts_calls_spec cfg _ _ p hps id hid
      exact ⟨h1, h2, by simpa [existingPostIDs] using h3⟩
    · intro id hid
      obtain ⟨h1, h2, h3⟩ := scanPages_calls_spec cfg _ _ g hpg id hid
      exact ⟨h1, h2, by simpa [existingPageIDs] using h3⟩
    · intro id hid
      obtain ⟨h1, h2, h3⟩ := scanMedia_calls_spec cfg _ _ m hmd id hid
      exact ⟨h1, h2, by simpa [existingMediaIDs] using h3⟩

/-- Witness for C2: knownIds = \x7b1,2\x7d and maxID = 5 probe exactly ids
3, 4, 5 for posts. -/
theorem scanForContent_probes_only_unknown_witness :
    (∀ id ∈ traceW.postCalls,
      1 ≤ id ∧ id ≤ cfg5W.maxID ∧ id ∉ epostsW.map WordPressPost.id) ∧
    (∀ id ∈ traceW.pageCalls,
      1 ≤ id ∧ id ≤ cfg5W.maxID ∧ id ∉ ([] : List WordPressPost).map WordPressPost.id) ∧
    (∀ id ∈ traceW.mediaCalls,
      1 ≤ id ∧ id ≤ cfg5W.maxID ∧ id ∉ ([] : List WordPressMedia).map WordPressMedia.id) :=
  scanForContent_probes_only_unknown cfg5W clientW epostsW [] [] resultW none
    traceW (by decide)

/-- C10: with BruteForce disabled, ScanForContent returns the empty ScanResult
(Found = 0) with a nil error and issues no fetch calls at all, whatever the
existing collections are. -/
theorem scanForContent_disabled_is_noop
    (cfg : Config) (client : WPClient)
    (eposts epages : List WordPressPost) (emedia : List WordPressMedia)
    (h : cfg.bruteForce = false) :
    ScanForContent cfg client eposts epages emedia =
      some ({ posts := [], pages := [], media := [], found := 0 }, none,
            { postCalls := [], pageCalls := [], mediaCalls := [] }) := by
  rw [ScanForContent, if_pos h]

/-- Witness for C10 at a concrete disabled configuration. -/
theorem scanForContent_disabled_is_noop_witness :
    ScanForContent { bruteForce := false, maxID := 100, concurrent := 2, verbose := false }
      clientW epostsW [] [] =
      some ({ posts := [], pages := [], media := [], found := 0 }, none,
            { postCalls := [], pageCalls := [], mediaCalls := [] }) :=
  scanForContent_disabled_is_noop _ clientW epostsW [] [] rfl

/-- C7 counterexample: with maxID = -1 (a negative value, which the claim
includes), the per-kind scan does not complete normally — the channel
allocation `make(chan int, MaxID)` panics, modelled as `none`. -/
theorem scanPosts_negative_maxID_panics :
    scanPosts { bruteForce := true, maxID := -1, concurrent := 2, verbose := false }
      (fun _ => FetchOutcome.absent) (fun _ => false) = none := by
  decide

/-- C7 amended: for maxID = 0 (the only non-negative maxID below 1) the
per-kind scan has an empty work queue and completes normally with zero
findings, no calls and no error for each kind; negative maxID instead panics
at the jobs-channel allocation. -/
theorem scan_maxID_zero_completes_empty
    (cfg : Config) (fp fg : Int → FetchOutcome WordPressPost)
    (fm : Int → FetchOutcome WordPressMedia) (e1 e2 e3 : Int → Bool)
    (h : cfg.maxID = 0) :
    scanPosts cfg fp e1 = some ([], []) ∧
    scanPages cfg fg e2 = some ([], []) ∧
    scanMedia cfg fm e3 = some ([], []) := by
  have hm : ¬ cfg.maxID < 0 := by omega
  have hr : idRange 1 cfg.maxID = [] := by
    rw [h]
    exact idRange_nil_of_gt 1 0 (by norm_num)
  refine ⟨?_, ?_, ?_⟩
  · unfold scanPosts
    rw [if_neg hm]
    by_cases hc : cfg.concurrent ≤ 0
    · rw [if_pos hc]
    · rw [if_neg hc, hr]
      rfl
  · unfold scanPages
    rw [if_neg hm]
    by_cases hc : cfg.concurrent ≤ 0
    · rw [if_pos hc]
    · rw [if_neg hc, hr]
      rfl
  · unfold scanMedia
    rw [if_neg hm]
    by_cases hc : cfg.concurrent ≤ 0
    · rw [if_pos hc]
    · rw [if_neg hc, hr]
      rfl

/-- Witness for the amended C7 at maxID = 0. -/
theorem scan_maxID_zero_completes_empty_witness :
    scanPosts { bruteForce := true, maxID := 0, concurrent := 2, verbose := false }
      clientW.fetchPost (fun _ => false) = some ([], []) ∧
    scanPages { bruteForce := true, maxID := 0, concurrent := 2, verbose := false }
      clientW.fetchPage (fun _ => false) = some ([], []) ∧
    scanMedia { bruteForce := true, maxID := 0, concurrent := 2, verbose := false }
      clientW.fetchMedia (fun _ => false) = some ([], []) :=
  scan_maxID_zero_completes_empty _ clientW.fetchPost clientW.fetchPage
    clientW.fetchMedia (fun _ => false) (fun _ => false) (fun _ => false) rfl

/-- C8: for any contentType outside posts/pages/media, ScanSpecificRange
returns the unsupported-content-type error having issued zero network calls;
and for every supported kind the result is Except.ok, so the invalid kind is
the only error case. -/
theorem scanSpecificRange_unsupported_kind_only_error
    (client : WPClient) (ct : String) (s e : Int)
    (h1 : ct ≠ "posts") (h2 : ct ≠ "pages") (h3 : ct ≠ "media") :
    ScanSpecificRange client ct s e =
      (Except.error ("unsupported content type: " ++ ct), ([] : List Int)) ∧
    (∀ ct2, ct2 = "posts" ∨ ct2 = "pages" ∨ ct2 = "media" →
      ∃ res, (ScanSpecificRange client ct2 s e).1 = Except.ok res) := by
  constructor
  · unfold ScanSpecificRange
    rw [if_neg h1, if_neg h2, if_neg h3]
  · rintro ct2 (rfl | rfl | rfl)
    · exact ⟨_, rfl⟩
    · exact ⟨_, rfl⟩
    · exact ⟨_, rfl⟩

/-- Witness for C8 at contentType "widgets". -/
theorem scanSpecificRange_unsupported_kind_only_error_witness :
    ScanSpecificRange clientW "widgets" 1 10 =
      (Except.error ("unsupported content type: " ++ "widgets"), ([] : List Int)) ∧
    (∀ ct2, ct2 = "posts" ∨ ct2 = "pages" ∨ ct2 = "media" →
      ∃ res, (ScanSpecificRange clientW ct2 1 10).1 = Except.ok res) :=
  scanSpecificRange_unsupported_kind_only_error clientW "widgets" 1 10
    (by decide) (by decide) (by decide)

/-- C9: ScanSpecificRange on a supported kind returns an empty sequence and a
nil error when startID > endID, and in general probes exactly the ids of
[startID, endID] (each exactly once, in ascending order, no known-id
filtering) and returns the records of the ids whose fetch succeeded. -/
theorem scanSpecificRange_probes_full_range (client : WPClient) (s e : Int) :
    (s > e →
      ScanSpecificRange client "posts" s e =
        (Except.ok (RangeScanResult.posts []), ([] : List Int)) ∧
      ScanSpecificRange client "pages" s e =
        (Except.ok (RangeScanResult.pages []), ([] : List Int)) ∧
      ScanSpecificRange client "media" s e =
        (Except.ok (RangeScanResult.media []), ([] : List Int))) ∧
    ScanSpecificRange client "posts" s e =
      (Except.ok (RangeScanResult.posts
        ((idRange s e).filterMap (fun id => recordOf (client.fetchPost id)))),
       idRange s e) ∧
    ScanSpecificRange client "pages" s e =
      (Except.ok (RangeScanResult.pages
        ((idRange s e).filterMap (fun id => recordOf (client.fetchPage id)))),
       idRange s e) ∧
    ScanSpecificRange client "media" s e =
      (Except.ok (RangeScanResult.media
        ((idRange s e).filterMap (fun id => recordOf (client.fetchMedia id)))),
       idRange s e) ∧
    (∀ id, id ∈ idRange s e ↔ s ≤ id ∧ id ≤ e) ∧
    List.Pairwise (fun a b => a < b) (idRange s e) := by
  have hposts : ScanSpecificRange client "posts" s e =
      (Except.ok (RangeScanResult.posts
        ((idRange s e).filterMap (fun id => recordOf (client.fetchPost id)))),
       idRange s e) := by
    unfold ScanSpecificRange
    rw [if_pos rfl, rangeJobs_eq]
  have hpages : ScanSpecificRange client "pages" s e =
      (Except.ok (RangeScanResult.pages
        ((idRange s e).filterMap (fun id => recordOf (client.fetchPage id)))),
       idRange s e) := by
    unfold ScanSpecificRange
    rw [if_neg (by decide), if_pos rfl, rangeJobs_eq]
  have hmedia : ScanSpecificRange client "media" s e =
      (Except.ok (RangeScanResult.media
        ((idRange s e).filterMap (fun id => recordOf (client.fetchMedia id)))),
       idRange s e) := by
    unfold ScanSpecificRange
    rw [if_neg (by decide), if_neg (by decide), if_pos rfl, rangeJobs_eq]
  refine ⟨?_, hposts, hpages, hmedia, fun id => idRange_mem s e id,
    idRange_sorted s e⟩
  intro hse
  have hr : idRange s e = [] := idRange_nil_of_gt s e (by omega)
  rw [hposts, hpages, hmedia, hr]
  exact ⟨rfl, rfl, rfl⟩

/-- Witness for C9: inverted bounds yield an empty sequence with no error. -/
theorem scanSpecificRange_probes_full_range_witness :
    ScanSpecificRange clientW "posts" 20 10 =
      (Except.ok (RangeScanResult.posts []), ([] : List Int)) :=
  (((scanSpecificRange_probes_full_range clientW 20 10).1 (by decide)).1)

/-- C3: the paged full-collection fetch starts at page 1, requests every page
with the fixed page size 100 (the fetch depends on the server only at
per_page = 100), and when the pages up to the first terminator (HTTP 400 or a
decoded empty list) are decodable non-empty 200 pages, it returns without
error exactly their in-order concatenation, excluding the terminator page. -/
theorem getAllContent_concatenates_pages {β ρ : Type}
    (server : Int → Int → HttpResult β) (decode : β → Option (List ρ))
    (ps : List (List ρ)) (fuel : Nat)
    (hfuel : ps.length + 1 ≤ fuel)
    (hgood : ∀ i (h : i < ps.length),
      goodPage server decode (1 + (i : Int)) (ps.get ⟨i, h⟩))
    (hterm : terminatorPage server decode (1 + (ps.length : Int))) :
    getAllContent server decode fuel = some (Except.ok ps.join) ∧
    (∀ s₂ : Int → Int → HttpResult β, (∀ p, server p perPage = s₂ p perPage) →
      getAllContent server decode fuel = getAllContent s₂ decode fuel) := by
  constructor
  · have h := getAllContentLoop_ok server decode ps fuel [] 1 hfuel hgood hterm
    simpa [getAllContent] using h
  · intro s₂ hs
    unfold getAllContent
    exact getAllContentLoop_congr server s₂ decode hs fuel [] 1

/-- Witness for C3: two non-empty pages then an empty page yield the
concatenation of the two pages. -/
theorem getAllContent_concatenates_pages_witness :
    getAllContent pagedServerW (fun b => some b) 3 = some (Except.ok pagesW.join) :=
  (getAllContent_concatenates_pages pagedServerW (fun b => some b) pagesW 3
    (by decide)
    (by
      intro i hi
      have h2 : i < 2 := by simpa [pagesW] using hi
      interval_cases i
      · exact ⟨(by decide : ([⟨1, "x"⟩, ⟨2, "y"⟩] : List WordPressPost) ≠ []),
          [⟨1, "x"⟩, ⟨2, "y"⟩], by decide, rfl⟩
      · exact ⟨(by decide : ([⟨3, "z"⟩] : List WordPressPost) ≠ []),
          [⟨3, "z"⟩], by decide, rfl⟩)
    (Or.inr ⟨[], by decide, rfl⟩)).1

/-- C4: if some requested page of the paged fetch yields a status other than
200 and 400, a transport failure, or a 200 body that does not decode as a
list, the whole fetch returns an error and no partial results — no list of
records is returned. -/
theorem getAllContent_aborts_without_partial_results {β ρ : Type}
    (server : Int → Int → HttpResult β) (decode : β → Option (List ρ))
    (ps : List (List ρ)) (fuel : Nat)
    (hfuel : ps.length + 1 ≤ fuel)
    (hgood : ∀ i (h : i < ps.length),
      goodPage server decode (1 + (i : Int)) (ps.get ⟨i, h⟩))
    (hbad : badPage server decode (1 + (ps.length : Int))) :
    (∃ er, getAllContent server decode fuel = some (Except.error er)) ∧
    (∀ l : List ρ, getAllContent server decode fuel ≠ some (Except.ok l)) := by
  obtain ⟨er, her⟩ :=
    getAllContentLoop_err server decode ps fuel [] 1 hfuel hgood hbad
  have her2 : getAllContent server decode fuel = some (Except.error er) := by
    simpa [getAllContent] using her
  refine ⟨⟨er, her2⟩, ?_⟩
  intro l hl
  rw [her2] at hl
  simp at hl

/-- Witness for C4: an HTTP 500 on page 1 aborts with an error. -/
theorem getAllContent_aborts_without_partial_results_witness :
    ∃ er, getAllContent server500W (fun b => some b) 1 =
      some (Except.error er) :=
  (getAllContent_aborts_without_partial_results server500W (fun b => some b)
    [] 1 (by decide)
    (by intro i hi; exact absurd hi (by simp))
    (Or.inr (Or.inl ⟨500, [], by decide, by decide, by decide⟩))).1

/-- C5: for each of GetPostByID, GetPageByID and GetMediaByID: an HTTP 404
yields the no-record, nil-error result; a status other than 200 and 404
yields an error; a 200 body that fails to decode yields an error; and a
decodable 200 body yields the decoded record with nil error. -/
theorem getByID_status_contract {β : Type}
    (serverP serverG serverM : Int → HttpResult β)
    (dP dG : β → Option WordPressPost) (dM : β → Option WordPressMedia)
    (id : Int) :
    ((∀ b, serverP id = HttpResult.response 404 b →
        GetPostByID serverP dP id = ByIDResult.notFound) ∧
     (∀ st b, serverP id = HttpResult.response st b → st ≠ 200 → st ≠ 404 →
        GetPostByID serverP dP id =
          ByIDResult.fetchErr (ClientError.statusError st id)) ∧
     (∀ b, serverP id = HttpResult.response 200 b → dP b = none →
        GetPostByID serverP dP id =
          ByIDResult.fetchErr (ClientError.decodeError id)) ∧
     (∀ b p, serverP id = HttpResult.response 200 b → dP b = some p →
        GetPostByID serverP dP id = ByIDResult.found p)) ∧
    ((∀ b, serverG id = HttpResult.response 404 b →
        GetPageByID serverG dG id = ByIDResult.notFound) ∧
     (∀ st b, serverG id = HttpResult.response st b → st ≠ 200 → st ≠ 404 →
        GetPageByID serverG dG id =
          ByIDResult.fetchErr (ClientError.statusError st id)) ∧
     (∀ b, serverG id = HttpResult.response 200 b → dG b = none →
        GetPageByID serverG dG id =
          ByIDResult.fetchErr (ClientError.decodeError id)) ∧
     (∀ b p, serverG id = HttpResult.response 200 b → dG b = some p →
        GetPageByID serverG dG id = ByIDResult.found p)) ∧
    ((∀ b, serverM id = HttpResult.response 404 b →
        GetMediaByID serverM dM id = ByIDResult.notFound) ∧
     (∀ st b, serverM id = HttpResult.response st b → st ≠ 200 → st ≠ 404 →
        GetMediaByID serverM dM id =
          ByIDResult.fetchErr (ClientError.statusError st id)) ∧
     (∀ b, serverM id = HttpResult.response 200 b → dM b = none →
        GetMediaByID serverM dM id =
          ByIDResult.fetchErr (ClientError.decodeError id)) ∧
     (∀ b m, serverM id = HttpResult.response 200 b → dM b = some m →
        GetMediaByID serverM dM id = ByIDResult.found m)) := by
  refine ⟨⟨?_, ?_, ?_, ?_⟩, ⟨?_, ?_, ?_, ?_⟩, ⟨?_, ?_, ?_, ?_⟩⟩
  · intro b hb
    simp [GetPostByID, hb]
  · intro st b hb h200 h404
    simp [GetPostByID, hb, h200, h404]
  · intro b hb hdec
    simp [GetPostByID, hb, hdec]
  · intro b p hb hdec
    simp [GetPostByID, hb, hdec]
  · intro b hb
    simp [GetPageByID, hb]
  · intro st b hb h200 h404
    simp [GetPageByID, hb, h200, h404]
  · intro b hb hdec
    simp [GetPageByID, hb, hdec]
  · intro b p hb hdec
    simp [GetPageByID, hb, hdec]
  · intro b hb
    simp [GetMediaByID, hb]
  · intro st b hb h200 h404
    simp [GetMediaByID, hb, h200, h404]
  · intro b hb hdec
    simp [GetMediaByID, hb, hdec]
  · intro b m hb hdec
    simp [GetMediaByID, hb, hdec]

/-- Witness for C5: 404 at id 1 is absence, 500 at id 2 is an error, an
undecodable 200 at id 3 is an error, a decodable 200 at id 3 is the record. -/
theorem getByID_status_contract_witness :
    GetPostByID byIDServerW decPostW 1 = ByIDResult.notFound ∧
    GetPageByID byIDServerW decPostW 2 =
      ByIDResult.fetchErr (ClientError.statusError 500 2) ∧
    GetPostByID byIDServerW (fun _ => none) 3 =
      ByIDResult.fetchErr (ClientError.decodeError 3) ∧
    GetPostByID byIDServerW decPostW 3 = ByIDResult.found ⟨7, "w"⟩ := by
  refine ⟨?_, ?_, ?_, ?_⟩
  · exact (getByID_status_contract byIDServerW byIDServerW byIDServerW decPostW
      decPostW (fun _ => none) 1).1.1 () (by decide)
  · exact (getByID_status_contract byIDServerW byIDServerW byIDServerW decPostW
      decPostW (fun _ => none) 2).2.1.2.1 500 () (by decide) (by decide)
      (by decide)
  · exact (getByID_status_contract byIDServerW byIDServerW byIDServerW
      (fun _ => none) decPostW (fun _ => none) 3).1.2.2.1 () (by decide) rfl
  · exact (getByID_status_contract byIDServerW byIDServerW byIDServerW decPostW
      decPostW (fun _ => none) 3).1.2.2.2 () ⟨7, "w"⟩ (by decide) rfl

/-- C6 counterexample: a transport-level network error on the settings
endpoint makes GetSiteInfo return an error, so it is not true that it never
returns an error for every server behaviour including network errors. -/
theorem getSiteInfo_errors_on_network_failure :
    getSiteInfo (HttpResult.netError : HttpResult Unit) HttpResult.netError
      (fun _ => none) "https://example.com" =
      Except.error "failed to get site info" := rfl

/-- C6 amended: whenever the settings request completes with an HTTP response
(any status, any body) and, in the non-200 case, the site-root fallback
request also completes with an HTTP response, GetSiteInfo returns a SiteInfo
with nil error; in particular when no body decodes it returns the synthesized
minimal SiteInfo made of the configured URL and the placeholder name.  Only a
transport-level network failure is propagated as an error. -/
theorem getSiteInfo_ok_on_http_responses {β : Type} (st : Int) (body : β)
    (siteRoot : HttpResult β) (decode : β → Option SiteInfo) (configURL : String)
    (h : st = 200 ∨ ∃ st2 b2, siteRoot = HttpResult.response st2 b2) :
    (∃ si, getSiteInfo (HttpResult.response st body) siteRoot decode configURL =
      Except.ok si) ∧
    ((∀ b, decode b = none) →
      getSiteInfo (HttpResult.response st body) siteRoot decode configURL =
        Except.ok (fallbackSiteInfo configURL)) := by
  by_cases hst : st = 200
  · subst hst
    constructor
    · cases hd : decode body with
      | none => exact ⟨fallbackSiteInfo configURL, by simp [getSiteInfo, hd]⟩
      | some si => exact ⟨si, by simp [getSiteInfo, hd]⟩
    · intro hnone
      simp [getSiteInfo, hnone body]
  · obtain ⟨st2, b2, hroot⟩ := h.resolve_left hst
    constructor
    · cases hd : decode b2 with
      | none =>
        exact ⟨fallbackSiteInfo configURL, by simp [getSiteInfo, hst, hroot, hd]⟩
      | some si => exact ⟨si, by simp [getSiteInfo, hst, hroot, hd]⟩
    · intro hnone
      simp [getSiteInfo, hst, hroot, hnone b2]

/-- Witness for the amended C6: a 500 settings response with an unusable
fallback body yields the synthesized minimal SiteInfo. -/
theorem getSiteInfo_ok_on_http_responses_witness :
    getSiteInfo (HttpResult.response 500 ()) (HttpResult.response 200 ())
      (fun _ => none) "https://example.com" =
      Except.ok (fallbackSiteInfo "https://example.com") :=
  (getSiteInfo_ok_on_http_responses 500 () (HttpResult.response 200 ())
    (fun _ => none) "https://example.com" (Or.inr ⟨200, (), rfl⟩)).2
    (fun _ => rfl)

end WPExporter
